import Mathlib

/-!
Formal model of the `upnp` Go library (UPnP IGD discovery and control client).

The pure computational core of each Go function is translated into an
executable Lean definition.  Network and XML effects (`http.Get`,
`client.Do`, `textproto.ReadMIMEHeader`, `xml.Unmarshal`) are passed in as
oracle parameters: an oracle maps the request data the Go code would send to
the response data the Go code would observe, so every code path of the Go
source is represented.  Go's `error` results are modelled as follows:

* a function returning a single `error` becomes `Option String`
  (`none` = nil error) or `Except String α`;
* `errors.Join(errs...)` over a slice of (always non-nil) errors becomes a
  `List String` of the joined leaf messages; the joined error is nil exactly
  when the list is empty, which mirrors `errors.Join()` returning `nil`.

Go slices keep their order; they are `List`s here.  `http.Header` becomes an
association list with a case-insensitive getter, mirroring `Header.Get`.
-/

/-! ## String helpers (strings.Trim, strings.Join, bytes.Cut, bytes.Split, strings.SplitN) -/

/-- Model of Go `strings.Trim(s, "/")`: remove all leading and trailing `/`. -/
def trimSlash (s : String) : String :=
  ⟨((s.data.dropWhile (fun c => c = '/')).reverse.dropWhile (fun c => c = '/')).reverse⟩

/-- Model of Go `strings.Join(parts, sep)`. -/
def joinStrings (sep : String) : List String → String
  | [] => ""
  | [x] => x
  | x :: xs => x ++ sep ++ joinStrings sep xs

/-- Model of Go `joinPath` (structs.go): trim `/` from every part, join with `/`. -/
def joinPath (parts : List String) : String :=
  joinStrings "/" (parts.map trimSlash)

/-- Model of Go `bytes.Cut(s, [sep])`: split at the first occurrence of `sep`;
`none` corresponds to `found == false`. -/
def cutCharAux (sep : Char) (acc : List Char) : List Char → Option (String × String)
  | [] => none
  | x :: xs => if x = sep then some (⟨acc.reverse⟩, ⟨xs⟩) else cutCharAux sep (x :: acc) xs

def cutChar (sep : Char) (s : String) : Option (String × String) :=
  cutCharAux sep [] s.data

/-- Model of Go `bytes.Split(s, [sep])`: split at every occurrence of `sep`,
keeping empty fields. -/
def splitCharAux (sep : Char) (acc : List Char) : List Char → List String
  | [] => [⟨acc.reverse⟩]
  | x :: xs => if x = sep then ⟨acc.reverse⟩ :: splitCharAux sep [] xs
               else splitCharAux sep (x :: acc) xs

def splitChar (sep : Char) (s : String) : List String :=
  splitCharAux sep [] s.data

/-- Model of Go `strings.SplitN(s, sep, n)` for a one-character separator and
`n > 0`: at most `n` parts, the last part keeps the unsplit remainder. -/
def splitNChar (sep : Char) : Nat → String → List String
  | 0, _ => []
  | 1, s => [s]
  | n + 2, s =>
    match cutChar sep s with
    | none => [s]
    | some (a, b) => a :: splitNChar sep (n + 1) b

/-! ## HTTP-level data (http.Header, the observable part of *http.Response) -/

/-- Model of `http.Header`: an ordered association list of header fields. -/
def Header : Type := List (String × String)

instance : DecidableEq Header := by unfold Header; infer_instance

/-- ASCII lower-casing on code points, used for case-insensitive header keys. -/
def charLowerNat (c : Char) : Nat :=
  let n := c.toNat
  if 65 ≤ n ∧ n ≤ 90 then n + 32 else n

/-- ASCII-case-insensitive string equality. -/
def strEqIC (a b : String) : Bool :=
  a.data.map charLowerNat == b.data.map charLowerNat

/-- Model of `http.Header.Get`: case-insensitive lookup of the first value,
`""` when the key is absent. -/
def headerGet (h : Header) (k : String) : String :=
  match h.find? (fun kv => strEqIC kv.1 k) with
  | some kv => kv.2
  | none => ""

/-- Observable part of a Go `*http.Response` after `io.ReadAll(res.Body)`:
`StatusCode` (e.g. `200`), `Status` (e.g. `"200 OK"`), and the body bytes. -/
structure HttpResponse where
  StatusCode : Nat
  Status : String
  Body : String
deriving DecidableEq, Inhabited

/-! ## Data model (structs.go) -/

/-- Action-name constants of structs.go. -/
def addPortMapping : String := "AddPortMapping"

def deletePortMapping : String := "DeletePortMapping"

def getExternalIPAddress : String := "GetExternalIPAddress"

/-- Required actions checked by `isValidService`
(the inline `[]string{addPortMapping, deletePortMapping, getExternalIPAddress}`). -/
def requiredActionNames : List String :=
  [addPortMapping, deletePortMapping, getExternalIPAddress]

structure specVersion where
  Major : Int
  Minor : Int
deriving DecidableEq, Inhabited

/-- Go `service` struct; the `XMLName xml.Name` marker field carries no data
and is omitted. `Location` is the derived base location (`xml:"-"`). -/
structure service where
  ServiceType : String
  ServiceId : String
  ControlURL : String
  EventSubURL : String
  SCPDURL : String
  Location : String
deriving DecidableEq, Inhabited

/-- Go `device` struct: a tree with an ordered service list and an ordered
child-device list. -/
inductive device where
  | mk (DeviceType SerialNumber UDN : String)
       (ServiceList : List service) (DeviceList : List device) : device

def device.ServiceList : device → List service
  | .mk _ _ _ ss _ => ss

def device.DeviceList : device → List device
  | .mk _ _ _ _ ds => ds

/-- Go `root` struct (device-description document). -/
structure root where
  XMLNS : String
  SpecVersion : specVersion
  Device : device
  BaseUrl : String

structure argument where
  Name : String
  Direction : String
  RelatedStateVariable : String
deriving DecidableEq, Inhabited

structure action where
  Name : String
  ArgumentList : List argument
deriving DecidableEq, Inhabited

/-- Go `description` struct (SCPD document). -/
structure description where
  ActionList : List action
deriving DecidableEq, Inhabited

/-- Zero value `service{}` returned on the error paths. -/
def zeroService : service := ⟨"", "", "", "", "", ""⟩

/-! ## isValidService (part_001 lines 134-161)

`get url` models `http.Get(url)` followed by `io.ReadAll(res.Body)`
(`.error` = I/O failure at either step); `parseSCPD body` models
`xml.Unmarshal(body, &desc)`.  The result is the Go `error`:
`none` = accepted. -/

def isValidService (get : String → Except String HttpResponse)
    (parseSCPD : String → Except String description) (s : service) : Option String :=
  let url := joinPath [s.Location, s.SCPDURL]
  match get url with
  | .error e => some e
  | .ok res =>
    if res.StatusCode ≠ 200 then
      some (url ++ " responed with status=" ++ toString res.StatusCode
            ++ " body=[" ++ res.Body ++ "]")
    else
      match parseSCPD res.Body with
      | .error e => some e
      | .ok desc =>
        if desc.ActionList.any (fun a => requiredActionNames.contains a.Name) then none
        else some (url ++ " service is not valid")

/-! ## getConnectionService (part_001 lines 163-181)

The live SCPD probe `isValidService` is abstracted as `probe : service →
Option String` (`none` = the service validates), exactly the argument fed to
it by the source: the candidate with its `Location` field set.  `serviceLoop`
is the first `for` loop (over `rootDevice.ServiceList`), `deviceLoop` the
second (over `rootDevice.DeviceList`).  A result's `List String` component is
the joined error: `[]` = nil error. -/

def serviceLoop (probe : service → Option String) (location : String) :
    List service → Option service × List String
  | [] => (none, [])
  | s :: rest =>
    let s' := { s with Location := location }
    match probe s' with
    | none => (some s', [])
    | some e =>
      let r := serviceLoop probe location rest
      (r.1, e :: r.2)

mutual
def getConnectionService (probe : service → Option String) (location : String) :
    device → service × List String
  | .mk _ _ _ ss ds =>
    match serviceLoop probe location ss with
    | (some s, _) => (s, [])
    | (none, errs1) =>
      match deviceLoop probe location ds with
      | (some s, _) => (s, [])
      | (none, errs2) => (zeroService, errs1 ++ errs2)

def deviceLoop (probe : service → Option String) (location : String) :
    List device → Option service × List String
  | [] => (none, [])
  | d :: ds =>
    match getConnectionService probe location d with
    | (s, []) => (some s, [])
    | (_, e :: errs) =>
      let r := deviceLoop probe location ds
      (r.1, (e :: errs) ++ r.2)
end

/-! ### Instrumented variant

Identical control flow, additionally returning the trace of probed
candidates in probe order (the mock-SCPD-fetcher call log of spec §8). -/

def serviceLoopT (probe : service → Option String) (location : String) :
    List service → Option service × List String × List service
  | [] => (none, [], [])
  | s :: rest =>
    let s' := { s with Location := location }
    match probe s' with
    | none => (some s', [], [s'])
    | some e =>
      let r := serviceLoopT probe location rest
      (r.1, e :: r.2.1, s' :: r.2.2)

mutual
def getConnectionServiceT (probe : service → Option String) (location : String) :
    device → (service × List String) × List service
  | .mk _ _ _ ss ds =>
    match serviceLoopT probe location ss with
    | (some s, _, tr) => ((s, []), tr)
    | (none, errs1, tr1) =>
      match deviceLoopT probe location ds with
      | (some s, _, tr2) => ((s, []), tr1 ++ tr2)
      | (none, errs2, tr2) => ((zeroService, errs1 ++ errs2), tr1 ++ tr2)

def deviceLoopT (probe : service → Option String) (location : String) :
    List device → Option service × List String × List service
  | [] => (none, [], [])
  | d :: ds =>
    match getConnectionServiceT probe location d with
    | ((s, []), tr) => (some s, [], tr)
    | ((_, e :: errs), tr) =>
      let r := deviceLoopT probe location ds
      (r.1, (e :: errs) ++ r.2.1, tr ++ r.2.2)
end

/-! ### Traversal order -/

mutual
/-- Pre-order candidate list of a device tree: a node's services (with
`Location` set), then its children's candidates, children in list order. -/
def preorderServices (location : String) : device → List service
  | .mk _ _ _ ss ds =>
    ss.map (fun s => { s with Location := location }) ++ preorderServicesList location ds

def preorderServicesList (location : String) : List device → List service
  | [] => []
  | d :: ds => preorderServices location d ++ preorderServicesList location ds
end

mutual
/-- True when every node of the tree has a service or a child device, i.e.
no subtree contributes an empty candidate-and-error run. -/
def noEmptyLeaf : device → Bool
  | .mk _ _ _ ss ds => (!(ss.isEmpty && ds.isEmpty)) && noEmptyLeafList ds

def noEmptyLeafList : List device → Bool
  | [] => true
  | d :: ds => noEmptyLeaf d && noEmptyLeafList ds
end

/-! ## upnpService (part_001 lines 45-68)

`dd h` models `deviceDescription(h)` (an HTTP GET of the reply's location
plus a permissive decode; `.error` = I/O failure or non-200).  `errs` is the
running `errs := []error{}` accumulator. -/

def upnpServiceLoop (dd : Header → Except String root)
    (probe : service → Option String) (errs : List String) :
    List Header → service × List String
  | [] => (zeroService, errs)
  | h :: rest =>
    match dd h with
    | .error e => upnpServiceLoop dd probe (errs ++ [e]) rest
    | .ok r0 =>
      let step := fun (base : String) =>
        match getConnectionService probe base r0.Device with
        | (s, []) => (s, ([] : List String))
        | (_, e :: cerrs) => upnpServiceLoop dd probe (errs ++ (e :: cerrs)) rest
      if r0.BaseUrl = "" then
        let locationN := splitNChar '/' 4 (headerGet h "LOCATION")
        if locationN.length < 3 then
          upnpServiceLoop dd probe
            (errs ++ ["invalid location: " ++ headerGet h "LOCATION" ++ "\n"]) rest
        else
          step (joinStrings "/" (locationN.take 3))
      else
        step r0.BaseUrl

def upnpService (dd : Header → Except String root)
    (probe : service → Option String) (headers : List Header) : service × List String :=
  upnpServiceLoop dd probe [] headers

/-! ## discover (part_001 lines 70-114)

The socket side (`udpRequest`) is I/O; the scan over the received datagrams
is modelled on the datagram list.  `mimeParse hdr` models
`textproto.ReadMIMEHeader` on the bytes after the first newline. -/

/-- Handling of one received datagram: the body of the `for _, res := range
devices` loop.  `.ok` = a header map appended to `headers`, `.error` = the
error appended to `errs`. -/
def scanOne (mimeParse : String → Except String Header) (res : String) :
    Except String Header :=
  match cutChar '\n' res with
  | none => .error ("invalid response: " ++ res ++ "\n")
  | some (httpRes, headerRes) =>
    let s := splitChar ' ' httpRes
    if s.length < 3 then .error ("invalid response: " ++ headerRes ++ "\n")
    else if s.getD 1 "" ≠ "200" then .error ("not ok: " ++ headerRes ++ "\n")
    else mimeParse headerRes

def discoverLoop (mimeParse : String → Except String Header) :
    List String → List Header × List String
  | [] => ([], [])
  | d :: rest =>
    let r := discoverLoop mimeParse rest
    match scanOne mimeParse d with
    | .ok h => (h :: r.1, r.2)
    | .error e => (r.1, e :: r.2)

/-- The scan-and-filter part of `discover`, applied to the datagrams returned
by `udpRequest` (which are non-empty: `udpRequest` fails on an empty
collection).  The `List String` component is the joined error: `[]` = nil. -/
def discover (mimeParse : String → Except String Header) (devices : List String) :
    List Header × List String :=
  let r := discoverLoop mimeParse devices
  if r.1 = [] then ([], r.2) else (r.1, [])

/-! ## SOAP layer (structs.go: envelope, newEnvelopeReq, doRequest; part_001:
the three Client action methods) -/

structure AddPortMappingRequest where
  XMLNS : String
  NewExternalPort : Int
  NewProtocol : String
  NewInternalPort : Int
  NewInternalClient : String
  NewEnabled : Int
  NewPortMappingDescription : String
  NewLeaseDuration : Int
deriving DecidableEq, Inhabited

structure DeletePortMappingRequest where
  XMLNS : String
  NewExternalPort : Int
  NewProtocol : String
deriving DecidableEq, Inhabited

structure GetExternalIPAddressRequest where
  XMLNS : String
deriving DecidableEq, Inhabited

structure AddPortMappingResponse where
deriving DecidableEq, Inhabited

structure DeletePortMappingResponse where
deriving DecidableEq, Inhabited

structure GetExternalIPAddressResponse where
  NewExternalIPAddress : String
deriving DecidableEq, Inhabited

/-- Go `body` struct: at most one request and one response element; absent
elements are `nil` pointers, here `none`. -/
structure body where
  AddPortMappingRequest : Option AddPortMappingRequest := none
  DeletePortMappingRequest : Option DeletePortMappingRequest := none
  GetExternalIPAddressRequest : Option GetExternalIPAddressRequest := none
  AddPortMappingResponse : Option AddPortMappingResponse := none
  DeletePortMappingResponse : Option DeletePortMappingResponse := none
  GetExternalIPAddressResponse : Option GetExternalIPAddressResponse := none
deriving DecidableEq, Inhabited

structure envelope where
  XMLNS : String
  EncodingStyle : String
  Body : body
deriving DecidableEq, Inhabited

/-- The data of the `*http.Request` built by `newEnvelopeReq`: target URL,
`SOAPAction` and `Content-Type` headers, and the SOAP envelope carried in the
body (kept structured; XML serialisation is the external encode capability). -/
structure Request where
  url : String
  soapAction : String
  contentType : String
  env : envelope
deriving DecidableEq, Inhabited

/-- Model of `newEnvelopeReq` (structs.go).  `xml.Marshal` on these fixed
shapes and `http.NewRequest` on a buffer cannot fail, so the error path is
not represented. -/
def newEnvelopeReq (act : String) (s : service) (b : body) : Request :=
  { url := joinPath [s.Location, s.ControlURL]
    soapAction := "\"" ++ s.ServiceType ++ "#" ++ act ++ "\""
    contentType := "text/xml; charset=utf-8"
    env := { XMLNS := "http://schemas.xmlsoap.org/soap/envelope/"
             EncodingStyle := "http://schemas.xmlsoap.org/soap/encoding/"
             Body := b } }

/-- Model of `doRequest` (structs.go lines 207-227).  `tr req` models
`client.Do(req)` plus `io.ReadAll(res.Body)` (`.error` = failure at either
step); `parseEnv body` models `xml.Unmarshal(resBody, &envelopeRes)`. -/
def doRequest (tr : Request → Except String HttpResponse)
    (parseEnv : String → Except String envelope) (req : Request) :
    Except String envelope :=
  match tr req with
  | .error e => .error e
  | .ok res =>
    if res.StatusCode ≠ 200 then
      .error ("not ok: " ++ res.Status ++ ": " ++ res.Body)
    else
      match parseEnv res.Body with
      | .error e => .error e
      | .ok envelopeRes => .ok envelopeRes

structure Client where
  LocalIP : String
  service : service

/-- The request-struct fix-up performed by `Client.AddPortMapping` on its
by-value argument before wrapping it in the envelope. -/
def Client.addPortMappingMsg (c : Client) (msg : AddPortMappingRequest) :
    AddPortMappingRequest :=
  let msg1 := if msg.NewInternalClient = "" then { msg with NewInternalClient := c.LocalIP }
              else msg
  { msg1 with XMLNS := c.service.ServiceType }

/-- The request built and sent by `Client.AddPortMapping`. -/
def Client.addPortMappingReq (c : Client) (msg : AddPortMappingRequest) : Request :=
  newEnvelopeReq addPortMapping c.service
    { AddPortMappingRequest := some (c.addPortMappingMsg msg) }

/-- Model of `(*Client).AddPortMapping` (part_001 lines 183-200). -/
def Client.AddPortMapping (c : Client) (tr : Request → Except String HttpResponse)
    (parseEnv : String → Except String envelope) (msg : AddPortMappingRequest) :
    Except String AddPortMappingResponse :=
  match doRequest tr parseEnv (c.addPortMappingReq msg) with
  | .error e => .error e
  | .ok res =>
    match res.Body.AddPortMappingResponse with
    | none => .ok {}
    | some r => .ok r

/-- The request built and sent by `Client.DeletePortMapping`. -/
def Client.deletePortMappingReq (c : Client) (msg : DeletePortMappingRequest) : Request :=
  newEnvelopeReq deletePortMapping c.service
    { DeletePortMappingRequest := some { msg with XMLNS := c.service.ServiceType } }

/-- Model of `(*Client).DeletePortMapping` (part_001 lines 202-216). -/
def Client.DeletePortMapping (c : Client) (tr : Request → Except String HttpResponse)
    (parseEnv : String → Except String envelope) (msg : DeletePortMappingRequest) :
    Except String DeletePortMappingResponse :=
  match doRequest tr parseEnv (c.deletePortMappingReq msg) with
  | .error e => .error e
  | .ok res =>
    match res.Body.DeletePortMappingResponse with
    | none => .ok {}
    | some r => .ok r

/-- The request built and sent by `Client.GetExternalIPAddress`. -/
def Client.getExternalIPAddressReq (c : Client) : Request :=
  newEnvelopeReq getExternalIPAddress c.service
    { GetExternalIPAddressRequest := some { XMLNS := c.service.ServiceType } }

/-- Model of `(*Client).GetExternalIPAddress` (part_001 lines 218-234). -/
def Client.GetExternalIPAddress (c : Client) (tr : Request → Except String HttpResponse)
    (parseEnv : String → Except String envelope) :
    Except String GetExternalIPAddressResponse :=
  match doRequest tr parseEnv c.getExternalIPAddressReq with
  | .error e => .error e
  | .ok res =>
    match res.Body.GetExternalIPAddressResponse with
    | none => .ok { NewExternalIPAddress := "" }
    | some r => .ok r

/-- Substring containment, used to state what an error message carries. -/
def strContains (s sub : String) : Prop := ∃ a b : String, s = a ++ sub ++ b

/-! ## Spec-side definitions for the discovery well-formedness claim

These two predicates follow the words of the specification, to be compared
with the behaviour of `scanOne`. -/

/-- Modelled from the spec: the whitespace-separated tokens of a line
(`strings.Fields` semantics: maximal runs of non-whitespace). -/
def wsTokensAux (acc : List Char) : List Char → List String
  | [] => if acc.isEmpty then [] else [⟨acc.reverse⟩]
  | x :: xs =>
    if x.isWhitespace then
      if acc.isEmpty then wsTokensAux [] xs else ⟨acc.reverse⟩ :: wsTokensAux [] xs
    else wsTokensAux (x :: acc) xs

def wsTokens (s : String) : List String := wsTokensAux [] s.data

/-- Modelled from the spec: a datagram is a well-formed 200-status reply when
the status-line/header split succeeds, the status line has at least 3
whitespace-separated tokens, the status code (second token) is `200`, and the
MIME headers parse. -/
def specWellFormed (mimeParse : String → Except String Header) (d : String) : Bool :=
  match cutChar '\n' d with
  | none => false
  | some (line, hdr) =>
    let toks := wsTokens line
    decide (toks.length ≥ 3) && (toks.getD 1 "" == "200")
      && (mimeParse hdr).toOption.isSome

/-- Well-formedness as the code checks it: the status line is split on single
spaces (empty fields counted) and the second field must be `"200"`. -/
def wellFormed200 (mimeParse : String → Except String Header) (d : String) : Bool :=
  match cutChar '\n' d with
  | none => false
  | some (line, hdr) =>
    let s := splitChar ' ' line
    decide (s.length ≥ 3) && (s.getD 1 "" == "200")
      && (mimeParse hdr).toOption.isSome

/-- The error recorded for a datagram the scan drops. -/
def scanErr (mimeParse : String → Except String Header) (d : String) : Option String :=
  match scanOne mimeParse d with
  | .error e => some e
  | .ok _ => none

/-! ## Concrete fixtures used by witnesses and counterexamples -/

/-- An SCPD probe accepting exactly the services whose `SCPDURL` is `"good"`. -/
def probeGoodScpd : service → Option String :=
  fun s => if s.SCPDURL = "good" then none else some ("bad " ++ s.SCPDURL)

/-- An SCPD probe accepting every candidate. -/
def probeAccept : service → Option String := fun _ => none

/-- An SCPD probe rejecting every candidate. -/
def probeReject : service → Option String := fun _ => some "rejected"

def svcBad : service := ⟨"tBad", "iBad", "cBad", "eBad", "nope", ""⟩

def svcGood : service := ⟨"tGood", "iGood", "cGood", "eGood", "good", ""⟩

def svcExtra : service := ⟨"tX", "iX", "cX", "eX", "alsogood", ""⟩

/-- A tree whose pre-order candidates are `svcBad`, `svcGood`, `svcExtra`:
one rejected service, then the first accepted one, then a never-probed child. -/
def devWitness : device :=
  .mk "rootT" "sn" "udn" [svcBad, svcGood] [.mk "childT" "sn2" "udn2" [svcExtra] []]

/-- A device node with no services and no child devices. -/
def devEmpty : device := .mk "emptyT" "sn0" "udn0" [] []

/-- A tree whose first child is the empty node and whose second child holds
an acceptable service. -/
def devCex : device := .mk "rootT" "sn" "udn" [] [devEmpty, .mk "childT" "sn2" "udn2" [svcGood] []]

/-- A device-description oracle returning a document with an explicit base
URL and an empty device tree. -/
def ddEmptyTree : Header → Except String root :=
  fun _ => .ok { XMLNS := "", SpecVersion := ⟨1, 0⟩, Device := devEmpty,
                 BaseUrl := "http://192.168.1.1:5000" }

/-- A device-description oracle returning a document with no explicit base
URL and the witness tree. -/
def ddNoBase : Header → Except String root :=
  fun _ => .ok { XMLNS := "", SpecVersion := ⟨1, 0⟩, Device := devWitness, BaseUrl := "" }

def replyHeader : Header := [("Location", "http://10.0.0.1:1234/desc.xml")]

/-- A MIME-header oracle that accepts any header block. -/
def mimeAny : String → Except String Header := fun s => .ok [("RAW", s)]

/-- A well-formed 200-status discovery datagram. -/
def datagramGood : String := "HTTP/1.1 200 OK\nLOCATION: http://10.0.0.1:1234/desc.xml"

/-- A datagram whose status line separates its 3 tokens with tabs instead of
spaces. -/
def datagramTabs : String := "HTTP/1.1\t200\tOK\nLOCATION: http://10.0.0.1:1234/desc.xml"

/-- A datagram with a status line of fewer than 3 fields. -/
def datagramShort : String := "HTTP/1.1\nLOCATION: http://10.0.0.1:1234/desc.xml"

/-- A non-200 datagram. -/
def datagramNotOk : String := "HTTP/1.1 404 NotFound\nLOCATION: http://10.0.0.1:1234/desc.xml"

/-- A transport oracle answering every request with HTTP 500 and body
`"internal error"`. -/
def tr500 : Request → Except String HttpResponse :=
  fun _ => .ok ⟨500, "500 Internal Server Error", "internal error"⟩

/-- A transport oracle answering every request with HTTP 200 and an opaque
body. -/
def tr200 : Request → Except String HttpResponse :=
  fun _ => .ok ⟨200, "200 OK", "soap-bytes"⟩

/-- An envelope-parse oracle decoding every body to an envelope with no
response element at all. -/
def peNoElement : String → Except String envelope :=
  fun _ => .ok { XMLNS := "", EncodingStyle := "", Body := {} }

/-- An envelope-parse oracle decoding every body to an envelope holding empty
response elements. -/
def peEmptyElement : String → Except String envelope :=
  fun _ => .ok { XMLNS := "", EncodingStyle := "",
                 Body := { AddPortMappingResponse := some {}
                           DeletePortMappingResponse := some {} } }

def clientW : Client :=
  { LocalIP := "192.168.1.77"
    service := ⟨"urn:schemas-upnp-org:service:WANIPConnection:1", "id", "/ctl", "/evt", "/scpd", "http://192.168.1.1:5000"⟩ }

def apmMsgW : AddPortMappingRequest :=
  { XMLNS := "junk", NewExternalPort := 8080, NewProtocol := "TCP", NewInternalPort := 8080,
    NewInternalClient := "", NewEnabled := 1, NewPortMappingDescription := "w", NewLeaseDuration := 0 }

/-! # Theorems -/

/-! ## String-level lemmas -/

theorem string_data_append (a b : String) : (a ++ b).data = a.data ++ b.data := rfl

theorem string_append_assoc (a b c : String) : a ++ b ++ c = a ++ (b ++ c) :=
  congrArg String.mk (List.append_assoc a.data b.data c.data)

theorem string_append_empty (a : String) : a ++ "" = a :=
  congrArg String.mk (List.append_nil a.data)

theorem dropWhile_append_cases (p : Char → Bool) (l₁ l₂ : List Char) :
    (l₁ ++ l₂).dropWhile p =
      if l₁.dropWhile p = [] then l₂.dropWhile p else l₁.dropWhile p ++ l₂ := by
  induction l₁ with
  | nil => simp
  | cons x xs ih =>
    by_cases h : p x = true
    · simpa [List.dropWhile_cons, h] using ih
    · simp [List.dropWhile_cons, h]

theorem trimSlash_left (b : String) : trimSlash ("/" ++ b) = trimSlash b := by
  have hd : ("/" ++ b).data = '/' :: b.data := rfl
  simp [trimSlash, hd, List.dropWhile_cons]

theorem trimSlash_right (a : String) : trimSlash (a ++ "/") = trimSlash a := by
  have hd : (a ++ "/").data = a.data ++ ['/'] := rfl
  unfold trimSlash
  rw [hd, dropWhile_append_cases]
  by_cases h : a.data.dropWhile (fun c => c = '/') = []
  · simp [h, List.dropWhile_cons]
  · simp [h, List.reverse_append, List.dropWhile_cons]

/-- C9: joining two path parts yields the parts, each stripped of leading and
trailing slashes, separated by exactly one `/`; the result is invariant under
adding a trailing slash to the first part or a leading slash to the second
(and the spec's concrete example holds). -/
theorem c9_joinPath_normalizes :
    (∀ a b : String,
      joinPath [a, b] = trimSlash a ++ "/" ++ trimSlash b
      ∧ joinPath [a ++ "/", b] = joinPath [a, b]
      ∧ joinPath ["/" ++ a, b] = joinPath [a, b]
      ∧ joinPath [a, b ++ "/"] = joinPath [a, b]
      ∧ joinPath [a, "/" ++ b] = joinPath [a, b])
    ∧ joinPath ["http://10.0.0.1:1234/desc/", "/ctl/1"] = "http://10.0.0.1:1234/desc/ctl/1" := by
  refine ⟨fun a b => ⟨rfl, ?_, ?_, ?_, ?_⟩, by decide⟩
  · simp [joinPath, trimSlash_right]
  · simp [joinPath, trimSlash_left]
  · simp [joinPath, trimSlash_right]
  · simp [joinPath, trimSlash_left]

/-! ## C7: non-200 control responses -/

/-- C7: when the transport returns a non-200 response, `doRequest` returns an
error (no decoded envelope) whose text contains both the response status and
the raw response body. -/
theorem c7_doRequest_non200 (tr : Request → Except String HttpResponse)
    (parseEnv : String → Except String envelope) (req : Request) (res : HttpResponse)
    (hres : tr req = .ok res) (hcode : res.StatusCode ≠ 200) :
    doRequest tr parseEnv req = .error ("not ok: " ++ res.Status ++ ": " ++ res.Body)
    ∧ strContains ("not ok: " ++ res.Status ++ ": " ++ res.Body) res.Status
    ∧ strContains ("not ok: " ++ res.Status ++ ": " ++ res.Body) res.Body := by
  refine ⟨?_, ?_, ?_⟩
  · simp [doRequest, hres, hcode]
  · exact ⟨"not ok: ", ": " ++ res.Body, by
      rw [string_append_assoc ("not ok: " ++ res.Status) ": " res.Body]⟩
  · exact ⟨"not ok: " ++ res.Status ++ ": ", "", (string_append_empty _).symm⟩

/-- Witness for C7 at the spec's concrete instance: HTTP 500 with body
`"internal error"` yields an error containing `"500"` and `"internal error"`. -/
theorem c7_witness :
    doRequest tr500 peNoElement default = .error "not ok: 500 Internal Server Error: internal error"
    ∧ strContains "not ok: 500 Internal Server Error: internal error" "500"
    ∧ strContains "not ok: 500 Internal Server Error: internal error" "internal error" := by
  have h := c7_doRequest_non200 tr500 peNoElement default
    ⟨500, "500 Internal Server Error", "internal error"⟩ rfl (by decide)
  exact ⟨h.1, ⟨"not ok: ", " Internal Server Error: internal error", rfl⟩,
    ⟨"not ok: 500 Internal Server Error: ", "", rfl⟩⟩

/-! ## Discovery scan lemmas -/

theorem discoverLoop_eq (m : String → Except String Header) (ds : List String) :
    discoverLoop m ds =
      (ds.filterMap (fun d => (scanOne m d).toOption), ds.filterMap (scanErr m)) := by
  induction ds with
  | nil => rfl
  | cons d rest ih =>
    cases h : scanOne m d <;> simp [discoverLoop, ih, h, scanErr, Except.toOption]

theorem scanOne_isSome_iff (m : String → Except String Header) (d : String) :
    (scanOne m d).toOption.isSome = wellFormed200 m d := by
  unfold scanOne wellFormed200
  cases hc : cutChar '\n' d with
  | none => rfl
  | some p =>
    obtain ⟨line, hdr⟩ := p
    by_cases h3 : (splitChar ' ' line).length < 3
    · have h3' : ¬ (3 ≤ (splitChar ' ' line).length) := by omega
      simp [h3, h3', Except.toOption]
    · have h3' : 3 ≤ (splitChar ' ' line).length := by omega
      by_cases h200 : (splitChar ' ' line).getD 1 "" = "200"
      · have h200' : (splitChar ' ' line)[1]?.getD "" = "200" := by
          rw [← List.getD_eq_getElem?_getD]; exact h200
        cases hm : m hdr <;> simp [h3, h3', h200, h200', hm, Except.toOption]
      · have h200' : ¬ ((splitChar ' ' line)[1]?.getD "" = "200") := by
          rw [← List.getD_eq_getElem?_getD]; exact h200
        simp [h3, h3', h200, h200', Except.toOption]

/-! ## C4: which datagrams discovery keeps -/

/-- C4 (amended): whenever at least one received datagram passes the code's
well-formedness checks, the scan returns, in arrival order, exactly the
parsed header maps of the datagrams that pass them, with a nil error; and a
datagram passes exactly when the status-line/header split succeeds, the
status line has at least 3 single-space-separated fields (empty fields
counted), the second field is `"200"`, and the MIME headers parse. -/
theorem c4_discover_wellformed (m : String → Except String Header) (ds : List String)
    (h : ∃ d ∈ ds, wellFormed200 m d = true) :
    discover m ds = (ds.filterMap (fun d => (scanOne m d).toOption), [])
    ∧ ∀ d : String, (scanOne m d).toOption.isSome = wellFormed200 m d := by
  constructor
  · unfold discover
    rw [discoverLoop_eq]
    have hne : ds.filterMap (fun d => (scanOne m d).toOption) ≠ [] := by
      obtain ⟨d0, hd0, hwf⟩ := h
      intro hnil
      have hsome : (scanOne m d0).toOption.isSome = true := by
        rw [scanOne_isSome_iff m d0]; exact hwf
      obtain ⟨hv, hv_eq⟩ := Option.isSome_iff_exists.mp hsome
      have : hv ∈ ds.filterMap (fun d => (scanOne m d).toOption) :=
        List.mem_filterMap.mpr ⟨d0, hd0, hv_eq⟩
      simp [hnil] at this
    simp [hne]
  · exact scanOne_isSome_iff m

/-- Witness for C4: a mixed batch (one good reply, one tab-separated status
line, one 404, one short status line) yields exactly the good reply's header
map. -/
theorem c4_discover_wellformed_witness :
    (∃ d ∈ [datagramGood, datagramTabs, datagramNotOk, datagramShort],
        wellFormed200 mimeAny d = true)
    ∧ discover mimeAny [datagramGood, datagramTabs, datagramNotOk, datagramShort]
        = ([[("RAW", "LOCATION: http://10.0.0.1:1234/desc.xml")]], []) := by
  refine ⟨⟨datagramGood, by decide, by decide⟩, ?_⟩
  have h := (c4_discover_wellformed mimeAny
    [datagramGood, datagramTabs, datagramNotOk, datagramShort]
    ⟨datagramGood, by decide, by decide⟩).1
  rw [h]
  decide

/-- Counterexample to C4 as stated: this datagram's status line has exactly
3 whitespace-separated tokens, its status code token is `200`, and its MIME
headers parse, so the claim requires discovery to return its header map; the
code splits on single spaces only, counts 1 field, and drops it. -/
theorem c4_counterexample :
    specWellFormed mimeAny datagramTabs = true
    ∧ discover mimeAny [datagramTabs]
        = ([], ["invalid response: LOCATION: http://10.0.0.1:1234/desc.xml\n"])
    ∧ discover mimeAny [datagramTabs]
        ≠ ([[("RAW", "LOCATION: http://10.0.0.1:1234/desc.xml")]], []) :=
  ⟨by decide, by decide, by decide⟩

/-! ## C8: all datagrams dropped -/

/-- C8: when every received datagram (the collection is non-empty, as
`udpRequest` fails on an empty one) fails the scan's checks, discovery
returns a non-nil terminal error aggregating exactly one recorded parse error
per datagram, in arrival order. -/
theorem c8_discover_all_dropped (m : String → Except String Header) (ds : List String)
    (hne : ds ≠ []) (h : ∀ d ∈ ds, wellFormed200 m d = false) :
    discover m ds = ([], ds.filterMap (scanErr m))
    ∧ (ds.filterMap (scanErr m)).length = ds.length
    ∧ ds.filterMap (scanErr m) ≠ [] := by
  have herr : ∀ d ∈ ds, (scanErr m d).isSome = true := by
    intro d hd
    have hs : (scanOne m d).toOption.isSome = wellFormed200 m d := scanOne_isSome_iff m d
    rw [h d hd] at hs
    cases he : scanOne m d with
    | error e => simp [scanErr, he]
    | ok hdr => rw [he] at hs; simp [Except.toOption] at hs
  have hlen : ∀ l : List String, (∀ d ∈ l, (scanErr m d).isSome = true) →
      (l.filterMap (scanErr m)).length = l.length := by
    intro l
    induction l with
    | nil => intro _; rfl
    | cons d rest ih =>
      intro hl
      have hd := hl d (List.mem_cons_self d rest)
      obtain ⟨e, he⟩ := Option.isSome_iff_exists.mp hd
      simp [he, ih (fun x hx => hl x (List.mem_cons_of_mem d hx))]
  have hl := hlen ds herr
  have hnil : ds.filterMap (fun d => (scanOne m d).toOption) = [] := by
    apply List.filterMap_eq_nil_iff.mpr
    intro d hd
    have hs : (scanOne m d).toOption.isSome = wellFormed200 m d := scanOne_isSome_iff m d
    rw [h d hd] at hs
    exact Option.not_isSome_iff_eq_none.mp (by simp [hs])
  refine ⟨?_, hl, ?_⟩
  · unfold discover
    rw [discoverLoop_eq, hnil]
    simp
  · intro hflat
    rw [hflat] at hl
    exact hne (List.length_eq_zero.mp hl.symm)

/-- Witness for C8: two malformed datagrams yield the two recorded errors. -/
theorem c8_witness :
    ([datagramShort, datagramNotOk] ≠ ([] : List String))
    ∧ discover mimeAny [datagramShort, datagramNotOk]
        = ([], ["invalid response: LOCATION: http://10.0.0.1:1234/desc.xml\n",
                "not ok: LOCATION: http://10.0.0.1:1234/desc.xml\n"]) := by
  refine ⟨by decide, ?_⟩
  have h := (c8_discover_all_dropped mimeAny [datagramShort, datagramNotOk]
    (by decide) (by decide)).1
  rw [h]
  decide

/-! ## Traversal lemmas -/

theorem takeWhile_append_all {α : Type} (p : α → Bool) (l₁ l₂ : List α)
    (h : ∀ x ∈ l₁, p x = true) :
    (l₁ ++ l₂).takeWhile p = l₁ ++ l₂.takeWhile p := by
  induction l₁ with
  | nil => simp
  | cons x xs ih =>
    have hx := h x (List.mem_cons_self x xs)
    simp [List.takeWhile_cons, hx,
      ih (fun y hy => h y (List.mem_cons_of_mem x hy))]

theorem takeWhile_append_stop {α : Type} (p : α → Bool) (l₁ l₂ : List α) (x : α)
    (hx : x ∈ l₁) (hpx : p x = false) :
    (l₁ ++ l₂).takeWhile p = l₁.takeWhile p := by
  revert hx
  induction l₁ with
  | nil => intro hx; cases hx
  | cons y ys ih =>
    intro hx
    by_cases hy : p y = true
    · have hxy : x ∈ ys := by
        cases List.mem_cons.mp hx with
        | inl heq => subst heq; rw [hy] at hpx; cases hpx
        | inr hmem => exact hmem
      simp [List.takeWhile_cons, hy, ih hxy]
    · have hy' : p y = false := by revert hy; cases p y <;> simp
      simp [List.takeWhile_cons, hy']

theorem psome_of_find?_none {probe : service → Option String} {L : List service}
    (h : L.find? (fun s => (probe s).isNone) = none) :
    ∀ x ∈ L, (probe x).isSome = true := by
  intro x hx
  have hno := List.find?_eq_none.mp h x hx
  cases hpx : probe x with
  | none => rw [hpx] at hno; simp at hno
  | some e => rfl

mutual
theorem preorderServices_ne_nil (l : String) (d : device) (h : noEmptyLeaf d = true) :
    preorderServices l d ≠ [] := by
  match d with
  | .mk dt sn udn ss ds =>
    unfold noEmptyLeaf at h
    rw [Bool.and_eq_true] at h
    obtain ⟨h1, h2⟩ := h
    unfold preorderServices
    cases hss : ss with
    | nil =>
      simp only [hss, List.map_nil, List.nil_append]
      apply preorderServicesList_ne_nil l ds h2
      subst hss
      simp [List.isEmpty_iff] at h1
      intro hds
      exact h1 hds
    | cons s rest => simp

theorem preorderServicesList_ne_nil (l : String) (ds : List device)
    (h : noEmptyLeafList ds = true) (hne : ds ≠ []) :
    preorderServicesList l ds ≠ [] := by
  match ds with
  | [] => exact absurd rfl hne
  | d :: rest =>
    unfold noEmptyLeafList at h
    rw [Bool.and_eq_true] at h
    unfold preorderServicesList
    have := preorderServices_ne_nil l d h.1
    simp [this]
end

theorem serviceLoopT_eq (probe : service → Option String) (l : String) (ss : List service) :
    (∀ s0, (ss.map (fun s => { s with Location := l })).find?
        (fun s => (probe s).isNone) = some s0 →
      ∃ es, serviceLoopT probe l ss =
        (some s0, es,
         (ss.map (fun s => { s with Location := l })).takeWhile
           (fun s => (probe s).isSome) ++ [s0]))
    ∧ ((ss.map (fun s => { s with Location := l })).find?
        (fun s => (probe s).isNone) = none →
      serviceLoopT probe l ss =
        (none, (ss.map (fun s => { s with Location := l })).filterMap probe,
         ss.map (fun s => { s with Location := l }))) := by
  induction ss with
  | nil =>
    constructor
    · intro s0 hf; simp at hf
    · intro _; rfl
  | cons s rest ih =>
    cases hp : probe { s with Location := l } with
    | none =>
      constructor
      · intro s0 hf
        rw [List.map_cons, List.find?_cons] at hf
        rw [hp] at hf
        simp only [Option.isNone_none, cond_true] at hf
        injection hf with hf
        subst hf
        refine ⟨[], ?_⟩
        simp [serviceLoopT, hp, List.takeWhile_cons]
      · intro hf
        rw [List.map_cons, List.find?_cons] at hf
        rw [hp] at hf
        simp at hf
    | some e =>
      constructor
      · intro s0 hf
        rw [List.map_cons, List.find?_cons] at hf
        rw [hp] at hf
        simp only [Option.isNone_some, cond_false] at hf
        obtain ⟨es, hes⟩ := ih.1 s0 hf
        refine ⟨e :: es, ?_⟩
        simp [serviceLoopT, hp, hes, List.takeWhile_cons]
      · intro hf
        rw [List.map_cons, List.find?_cons] at hf
        rw [hp] at hf
        simp only [Option.isNone_some, cond_false] at hf
        simp [serviceLoopT, hp, ih.2 hf, List.filterMap_cons]

mutual
theorem getConnectionServiceT_eq (probe : service → Option String) (l : String)
    (d : device) (h : noEmptyLeaf d = true) :
    (∀ s0, (preorderServices l d).find? (fun s => (probe s).isNone) = some s0 →
      getConnectionServiceT probe l d =
        ((s0, []),
         (preorderServices l d).takeWhile (fun s => (probe s).isSome) ++ [s0]))
    ∧ ((preorderServices l d).find? (fun s => (probe s).isNone) = none →
      getConnectionServiceT probe l d =
        ((zeroService, (preorderServices l d).filterMap probe),
         preorderServices l d)) := by
  match d with
  | .mk dt sn udn ss ds =>
    unfold noEmptyLeaf at h
    rw [Bool.and_eq_true] at h
    obtain ⟨h1, h2⟩ := h
    have SL := serviceLoopT_eq probe l ss
    have DL := deviceLoopT_eq probe l ds h2
    have hpre : preorderServices l (device.mk dt sn udn ss ds)
        = (ss.map fun s => { s with Location := l }) ++ preorderServicesList l ds := rfl
    cases hM : (ss.map fun s => { s with Location := l }).find?
        (fun s => (probe s).isNone) with
    | some s0 =>
      obtain ⟨es, hes⟩ := SL.1 s0 hM
      have hmem : s0 ∈ ss.map fun s => { s with Location := l } :=
        List.mem_of_find?_eq_some hM
      have hisnone : (probe s0).isNone = true := by simpa using List.find?_some hM
      have hps' : (probe s0).isSome = false := by
        cases hpx : probe s0
        · rfl
        · rw [hpx] at hisnone; simp at hisnone
      refine ⟨?_, ?_⟩
      · intro t0 hf
        rw [hpre, List.find?_append, hM] at hf
        have hf' : (some s0 : Option service) = some t0 := hf
        injection hf' with hf0
        subst hf0
        unfold getConnectionServiceT
        rw [hes, hpre, takeWhile_append_stop _ _ _ s0 hmem hps']
      · intro hf
        rw [hpre, List.find?_append, hM] at hf
        exact Option.noConfusion (show (some s0 : Option service) = none from hf)
    | none =>
      have SLres := SL.2 hM
      have hall := psome_of_find?_none hM
      cases hP : (preorderServicesList l ds).find? (fun s => (probe s).isNone) with
      | some s0 =>
        obtain ⟨es2, hes2⟩ := DL.1 s0 hP
        refine ⟨?_, ?_⟩
        · intro t0 hf
          rw [hpre, List.find?_append, hM] at hf
          have hf' : (preorderServicesList l ds).find? (fun s => (probe s).isNone)
              = some t0 := hf
          rw [hP] at hf'
          injection hf' with hf0
          subst hf0
          unfold getConnectionServiceT
          rw [SLres, hes2, hpre, takeWhile_append_all _ _ _ hall]
          simp [List.append_assoc]
        · intro hf
          rw [hpre, List.find?_append, hM] at hf
          have hf' : (preorderServicesList l ds).find? (fun s => (probe s).isNone)
              = none := hf
          rw [hP] at hf'
          exact Option.noConfusion hf'
      | none =>
        have DLres := DL.2 hP
        refine ⟨?_, ?_⟩
        · intro t0 hf
          rw [hpre, List.find?_append, hM] at hf
          have hf' : (preorderServicesList l ds).find? (fun s => (probe s).isNone)
              = some t0 := hf
          rw [hP] at hf'
          exact Option.noConfusion hf'
        · intro _
          unfold getConnectionServiceT
          rw [SLres, DLres, hpre, List.filterMap_append]

theorem deviceLoopT_eq (probe : service → Option String) (l : String)
    (ds : List device) (h : noEmptyLeafList ds = true) :
    (∀ s0, (preorderServicesList l ds).find? (fun s => (probe s).isNone) = some s0 →
      ∃ es, deviceLoopT probe l ds =
        (some s0, es,
         (preorderServicesList l ds).takeWhile (fun s => (probe s).isSome) ++ [s0]))
    ∧ ((preorderServicesList l ds).find? (fun s => (probe s).isNone) = none →
      deviceLoopT probe l ds =
        (none, (preorderServicesList l ds).filterMap probe,
         preorderServicesList l ds)) := by
  match ds with
  | [] =>
    refine ⟨?_, ?_⟩
    · intro s0 hf
      rw [show preorderServicesList l ([] : List device) = [] from rfl] at hf
      simp at hf
    · intro _; rfl
  | d :: rest =>
    unfold noEmptyLeafList at h
    rw [Bool.and_eq_true] at h
    obtain ⟨hd, hrest⟩ := h
    have GC := getConnectionServiceT_eq probe l d hd
    have IH := deviceLoopT_eq probe l rest hrest
    have hpre : preorderServicesList l (d :: rest)
        = preorderServices l d ++ preorderServicesList l rest := rfl
    cases hD : (preorderServices l d).find? (fun s => (probe s).isNone) with
    | some s0 =>
      have GCres := GC.1 s0 hD
      have hmem := List.mem_of_find?_eq_some hD
      have hisnone : (probe s0).isNone = true := by simpa using List.find?_some hD
      have hps' : (probe s0).isSome = false := by
        cases hpx : probe s0
        · rfl
        · rw [hpx] at hisnone; simp at hisnone
      refine ⟨?_, ?_⟩
      · intro t0 hf
        rw [hpre, List.find?_append, hD] at hf
        have hf' : (some s0 : Option service) = some t0 := hf
        injection hf' with hf0
        subst hf0
        refine ⟨[], ?_⟩
        unfold deviceLoopT
        rw [GCres, hpre, takeWhile_append_stop _ _ _ s0 hmem hps']
      · intro hf
        rw [hpre, List.find?_append, hD] at hf
        exact Option.noConfusion (show (some s0 : Option service) = none from hf)
    | none =>
      have GCres := GC.2 hD
      have hall := psome_of_find?_none hD
      have hne := preorderServices_ne_nil l d hd
      cases hpd : preorderServices l d with
      | nil => exact absurd hpd hne
      | cons x xs =>
        have hx_some : (probe x).isSome = true :=
          hall x (by rw [hpd]; exact List.mem_cons_self x xs)
        obtain ⟨e, he⟩ := Option.isSome_iff_exists.mp hx_some
        have hfm : (preorderServices l d).filterMap probe = e :: xs.filterMap probe := by
          simp [hpd, List.filterMap_cons, he]
        have GCres' : getConnectionServiceT probe l d
            = ((zeroService, e :: xs.filterMap probe), x :: xs) := by
          rw [GCres, hfm, hpd]
        cases hP : (preorderServicesList l rest).find? (fun s => (probe s).isNone) with
        | some s0 =>
          obtain ⟨es', hes'⟩ := IH.1 s0 hP
          refine ⟨?_, ?_⟩
          · intro t0 hf
            rw [hpre, List.find?_append, hD] at hf
            have hf' : (preorderServicesList l rest).find? (fun s => (probe s).isNone)
                = some t0 := hf
            rw [hP] at hf'
            injection hf' with hf0
            subst hf0
            refine ⟨(e :: xs.filterMap probe) ++ es', ?_⟩
            unfold deviceLoopT
            rw [GCres', hes', hpre, takeWhile_append_all _ _ _ hall, hpd]
            simp [List.append_assoc]
          · intro hf
            rw [hpre, List.find?_append, hD] at hf
            have hf' : (preorderServicesList l rest).find? (fun s => (probe s).isNone)
                = none := hf
            rw [hP] at hf'
            exact Option.noConfusion hf'
        | none =>
          have IHres := IH.2 hP
          refine ⟨?_, ?_⟩
          · intro t0 hf
            rw [hpre, List.find?_append, hD] at hf
            have hf' : (preorderServicesList l rest).find? (fun s => (probe s).isNone)
                = some t0 := hf
            rw [hP] at hf'
            exact Option.noConfusion hf'
          · intro _
            unfold deviceLoopT
            rw [GCres', IHres, hpre, List.filterMap_append, hfm, hpd]
end

theorem serviceLoop_eq_T (probe : service → Option String) (l : String)
    (ss : List service) :
    serviceLoop probe l ss = ((serviceLoopT probe l ss).1, (serviceLoopT probe l ss).2.1) := by
  induction ss with
  | nil => rfl
  | cons s rest ih =>
    cases hp : probe { s with Location := l } <;>
      simp [serviceLoop, serviceLoopT, hp, ih]

mutual
theorem getConnectionService_eq_T (probe : service → Option String) (l : String)
    (d : device) :
    getConnectionService probe l d = (getConnectionServiceT probe l d).1 := by
  match d with
  | .mk dt sn udn ss ds =>
    have hdl := deviceLoop_eq_T probe l ds
    unfold getConnectionService getConnectionServiceT
    rw [serviceLoop_eq_T probe l ss]
    cases hsl : serviceLoopT probe l ss with
    | mk o p =>
      obtain ⟨errs, tr⟩ := p
      cases o with
      | some s => rfl
      | none =>
        rw [hdl]
        cases hdlt : deviceLoopT probe l ds with
        | mk o2 p2 =>
          obtain ⟨errs2, tr2⟩ := p2
          cases o2 with
          | some s2 => rfl
          | none => rfl

theorem deviceLoop_eq_T (probe : service → Option String) (l : String)
    (ds : List device) :
    deviceLoop probe l ds = ((deviceLoopT probe l ds).1, (deviceLoopT probe l ds).2.1) := by
  match ds with
  | [] => rfl
  | d :: rest =>
    have hgc := getConnectionService_eq_T probe l d
    have ih := deviceLoop_eq_T probe l rest
    unfold deviceLoop deviceLoopT
    rw [hgc]
    cases hg : getConnectionServiceT probe l d with
    | mk p tr =>
      obtain ⟨s, errs⟩ := p
      cases errs with
      | nil => rfl
      | cons e erest => simp [ih]
end

/-! ## C1: traversal order of service resolution -/

/-- C1 (amended): for every device tree in which every node carries at least
one service or one child device, resolution probes candidates depth-first in
pre-order (a node's services in list order before its children in list
order): when some candidate validates, the first validating candidate in
pre-order is returned with a nil error and the probe trace is exactly the
rejected pre-order prefix followed by that candidate — nothing after the
first success is probed; when no candidate validates, every candidate is
probed and the zero service is returned with all recorded errors.  (The
untraced model agrees with the traced one.) -/
theorem c1_traversal (probe : service → Option String) (l : String) (d : device)
    (h : noEmptyLeaf d = true) :
    getConnectionService probe l d = (getConnectionServiceT probe l d).1
    ∧ getConnectionServiceT probe l d =
        (match (preorderServices l d).find? (fun s => (probe s).isNone) with
         | some s0 => ((s0, []),
             (preorderServices l d).takeWhile (fun s => (probe s).isSome) ++ [s0])
         | none => ((zeroService, (preorderServices l d).filterMap probe),
             preorderServices l d)) := by
  refine ⟨getConnectionService_eq_T probe l d, ?_⟩
  cases hf : (preorderServices l d).find? (fun s => (probe s).isNone) with
  | some s0 => exact (getConnectionServiceT_eq probe l d h).1 s0 hf
  | none => exact (getConnectionServiceT_eq probe l d h).2 hf

/-- Witness for C1: in a tree with a rejected service, then an accepted one,
then a child holding a further acceptable service, resolution returns the
accepted service and the probe trace stops there: the child's service is
never probed. -/
theorem c1_traversal_witness :
    noEmptyLeaf devWitness = true
    ∧ getConnectionServiceT probeGoodScpd "http://gw" devWitness
        = (({ svcGood with Location := "http://gw" }, []),
           [{ svcBad with Location := "http://gw" },
            { svcGood with Location := "http://gw" }]) := by
  refine ⟨by decide, ?_⟩
  have h := (c1_traversal probeGoodScpd "http://gw" devWitness (by decide)).2
  rw [h]
  decide

/-- Counterexample to C1 as stated: in `devCex` the probe accepts every
candidate, and the first (and only) candidate in traversal order is
`svcGood` inside the second child; but the first child is an empty device
node, which the code treats as an immediate success (an empty `errors.Join`
is a nil error), so resolution returns the zero-valued service, probes
nothing, and never returns the first validating service. -/
theorem c1_counterexample :
    (preorderServices "http://gw" devCex).find? (fun s => (probeAccept s).isNone)
        = some { svcGood with Location := "http://gw" }
    ∧ getConnectionService probeAccept "http://gw" devCex = (zeroService, [])
    ∧ zeroService ≠ { svcGood with Location := "http://gw" }
    ∧ (getConnectionServiceT probeAccept "http://gw" devCex).2 = [] :=
  ⟨by decide, by decide, by decide, by decide⟩

/-! ## C3: resolution success/failure discipline -/

/-- C3 evaluated at the failing input: with a probe that rejects every
candidate (so no service can be live-validated), a single reply whose
document carries an explicit base URL and a device tree with no services and
no child devices makes `upnpService` return the zero-valued service with a
nil error — a success without any accepted service, with nothing probed —
because `errors.Join` of the empty error list is nil. -/
theorem c3_empty_tree_spurious_success :
    (∀ s : service, probeReject s ≠ none)
    ∧ upnpService ddEmptyTree probeReject [replyHeader] = (zeroService, [])
    ∧ (getConnectionServiceT probeReject "http://192.168.1.1:5000" devEmpty).2 = [] :=
  ⟨fun s => by simp [probeReject], by decide, by decide⟩

/-! ## C5: base-location derivation -/

/-- C5: for each discovery reply whose description fetch succeeds, resolution
proceeds with `baseLocation` equal to the document's explicit base URL when
that is non-empty; otherwise with the first three `/`-separated segments of
the reply's LOCATION header rejoined with `/` (its scheme+host+port prefix);
and when that LOCATION has fewer than three `/`-separated segments the reply
is recorded as a failure and resolution moves on to the next reply. -/
theorem c5_base_location (dd : Header → Except String root)
    (probe : service → Option String) (errs : List String) (h : Header)
    (rest : List Header) (r0 : root) (hdd : dd h = .ok r0) :
    (r0.BaseUrl ≠ "" →
      upnpServiceLoop dd probe errs (h :: rest) =
        (match getConnectionService probe r0.BaseUrl r0.Device with
         | (s, []) => (s, [])
         | (_, e :: cerrs) => upnpServiceLoop dd probe (errs ++ (e :: cerrs)) rest))
    ∧ (r0.BaseUrl = "" → 3 ≤ (splitNChar '/' 4 (headerGet h "LOCATION")).length →
      upnpServiceLoop dd probe errs (h :: rest) =
        (match getConnectionService probe
            (joinStrings "/" ((splitNChar '/' 4 (headerGet h "LOCATION")).take 3))
            r0.Device with
         | (s, []) => (s, [])
         | (_, e :: cerrs) => upnpServiceLoop dd probe (errs ++ (e :: cerrs)) rest))
    ∧ (r0.BaseUrl = "" → (splitNChar '/' 4 (headerGet h "LOCATION")).length < 3 →
      upnpServiceLoop dd probe errs (h :: rest) =
        upnpServiceLoop dd probe
          (errs ++ ["invalid location: " ++ headerGet h "LOCATION" ++ "\n"]) rest) := by
  refine ⟨?_, ?_, ?_⟩
  · intro hbase
    simp [upnpServiceLoop, hdd, hbase]
  · intro hbase hlen
    have hlt : ¬ ((splitNChar '/' 4 (headerGet h "LOCATION")).length < 3) := by omega
    simp [upnpServiceLoop, hdd, hbase, hlt]
  · intro hbase hlen
    simp [upnpServiceLoop, hdd, hbase, hlen]

/-- Witness for C5: a reply whose document has an empty base-URL field makes
resolution run against the scheme+host+port prefix of its LOCATION header,
`http://10.0.0.1:1234`, and bind the accepted service at that base. -/
theorem c5_base_location_witness :
    ddNoBase replyHeader
        = .ok { XMLNS := "", SpecVersion := ⟨1, 0⟩, Device := devWitness, BaseUrl := "" }
    ∧ upnpService ddNoBase probeGoodScpd [replyHeader]
        = ({ svcGood with Location := "http://10.0.0.1:1234" }, []) := by
  refine ⟨rfl, ?_⟩
  have h := (c5_base_location ddNoBase probeGoodScpd [] replyHeader []
      { XMLNS := "", SpecVersion := ⟨1, 0⟩, Device := devWitness, BaseUrl := "" }
      rfl).2.1 rfl (by decide)
  unfold upnpService
  rw [h]
  decide

/-! ## C2: service validation -/

/-- C2: `isValidService` accepts a candidate exactly when the GET of
`joinPath(baseLocation, SCPDURL)` succeeds with status 200, the body parses
as an SCPD document, and the document's action names meet the required-action
set; every I/O failure, non-200 status, or parse failure rejects. -/
theorem c2_isValidService_iff (get : String → Except String HttpResponse)
    (parseSCPD : String → Except String description) (s : service) :
    isValidService get parseSCPD s = none ↔
      ∃ res : HttpResponse,
        get (joinPath [s.Location, s.SCPDURL]) = .ok res
        ∧ res.StatusCode = 200
        ∧ ∃ d : description, parseSCPD res.Body = .ok d
            ∧ ∃ a ∈ d.ActionList, a.Name ∈ requiredActionNames := by
  unfold isValidService
  cases hg : get (joinPath [s.Location, s.SCPDURL]) with
  | error e => simp [hg]
  | ok res =>
    by_cases hc : res.StatusCode = 200
    · cases hp : parseSCPD res.Body with
      | error e => simp [hg, hc, hp]
      | ok d =>
        simp [hg, hc, hp, List.any_eq_true]
    · simp [hg, hc]

/-! ## C6: empty-acknowledgment policy on 200 responses -/

/-- C6: for each of the three actions, an HTTP 200 response whose parsed
envelope lacks the response element matching the invoked action — or carries
an empty one — yields the zero-valued response of that action's response
type and no error. -/
theorem c6_empty_ack (c : Client) (tr : Request → Except String HttpResponse)
    (pe : String → Except String envelope) (res : HttpResponse) (env : envelope)
    (h200 : res.StatusCode = 200) (hpe : pe res.Body = .ok env) :
    (∀ msg, tr (c.addPortMappingReq msg) = .ok res →
      env.Body.AddPortMappingResponse = none →
      c.AddPortMapping tr pe msg = .ok {})
    ∧ (∀ msg r, tr (c.addPortMappingReq msg) = .ok res →
      env.Body.AddPortMappingResponse = some r →
      c.AddPortMapping tr pe msg = .ok {})
    ∧ (∀ msg, tr (c.deletePortMappingReq msg) = .ok res →
      env.Body.DeletePortMappingResponse = none →
      c.DeletePortMapping tr pe msg = .ok {})
    ∧ (∀ msg r, tr (c.deletePortMappingReq msg) = .ok res →
      env.Body.DeletePortMappingResponse = some r →
      c.DeletePortMapping tr pe msg = .ok {})
    ∧ (tr c.getExternalIPAddressReq = .ok res →
      env.Body.GetExternalIPAddressResponse = none →
      c.GetExternalIPAddress tr pe = .ok { NewExternalIPAddress := "" }) := by
  refine ⟨?_, ?_, ?_, ?_, ?_⟩
  · intro msg htr hnone
    simp [Client.AddPortMapping, doRequest, htr, h200, hpe, hnone]
  · intro msg r htr hsome
    cases r
    simp [Client.AddPortMapping, doRequest, htr, h200, hpe, hsome]
  · intro msg htr hnone
    simp [Client.DeletePortMapping, doRequest, htr, h200, hpe, hnone]
  · intro msg r htr hsome
    cases r
    simp [Client.DeletePortMapping, doRequest, htr, h200, hpe, hsome]
  · intro htr hnone
    simp [Client.GetExternalIPAddress, doRequest, htr, h200, hpe, hnone]

/-- Witness for C6: against a 200 endpoint whose envelope carries no response
element at all, all three calls return zero-valued responses with no error,
and likewise when the envelope carries empty response elements. -/
theorem c6_empty_ack_witness :
    clientW.AddPortMapping tr200 peNoElement apmMsgW = .ok {}
    ∧ clientW.DeletePortMapping tr200 peNoElement
        { XMLNS := "", NewExternalPort := 8080, NewProtocol := "TCP" } = .ok {}
    ∧ clientW.GetExternalIPAddress tr200 peNoElement = .ok { NewExternalIPAddress := "" }
    ∧ clientW.AddPortMapping tr200 peEmptyElement apmMsgW = .ok {} := by
  have h := c6_empty_ack clientW tr200 peNoElement ⟨200, "200 OK", "soap-bytes"⟩
    { XMLNS := "", EncodingStyle := "", Body := {} } rfl rfl
  have h2 := c6_empty_ack clientW tr200 peEmptyElement ⟨200, "200 OK", "soap-bytes"⟩
    { XMLNS := "", EncodingStyle := "",
      Body := { AddPortMappingResponse := some {}
                DeletePortMappingResponse := some {} } } rfl rfl
  exact ⟨h.1 apmMsgW rfl rfl, h.2.2.1 _ rfl rfl, h.2.2.2.2 rfl rfl,
    h2.2.1 apmMsgW {} rfl rfl⟩

/-! ## C10: how the outgoing SOAP body is built -/

/-- C10: each action method sends the caller's request struct unchanged
except that XMLNS is overwritten with the bound service's serviceType (a
caller-supplied XMLNS is ignored) and, for AddPortMapping only, an empty
NewInternalClient is replaced by the client's LocalIP; no other body element
is set.  The Go methods receive the struct by value; the purely functional
model reflects that the caller's own struct is unchanged: `msg` and `dmsg`
appear unmodified on the right-hand sides. -/
theorem c10_request_construction (c : Client) (msg : AddPortMappingRequest)
    (dmsg : DeletePortMappingRequest) :
    ((c.addPortMappingReq msg).env.Body.AddPortMappingRequest =
      some { XMLNS := c.service.ServiceType
             NewExternalPort := msg.NewExternalPort
             NewProtocol := msg.NewProtocol
             NewInternalPort := msg.NewInternalPort
             NewInternalClient := if msg.NewInternalClient = "" then c.LocalIP
                                  else msg.NewInternalClient
             NewEnabled := msg.NewEnabled
             NewPortMappingDescription := msg.NewPortMappingDescription
             NewLeaseDuration := msg.NewLeaseDuration })
    ∧ (∀ x, c.addPortMappingReq { msg with XMLNS := x } = c.addPortMappingReq msg)
    ∧ ((c.addPortMappingReq msg).env.Body.DeletePortMappingRequest = none
       ∧ (c.addPortMappingReq msg).env.Body.GetExternalIPAddressRequest = none
       ∧ (c.addPortMappingReq msg).env.Body.AddPortMappingResponse = none
       ∧ (c.addPortMappingReq msg).env.Body.DeletePortMappingResponse = none
       ∧ (c.addPortMappingReq msg).env.Body.GetExternalIPAddressResponse = none)
    ∧ ((c.deletePortMappingReq dmsg).env.Body.DeletePortMappingRequest =
      some { XMLNS := c.service.ServiceType
             NewExternalPort := dmsg.NewExternalPort
             NewProtocol := dmsg.NewProtocol })
    ∧ (∀ x, c.deletePortMappingReq { dmsg with XMLNS := x } = c.deletePortMappingReq dmsg)
    ∧ (c.getExternalIPAddressReq.env.Body.GetExternalIPAddressRequest =
      some { XMLNS := c.service.ServiceType }) := by
  refine ⟨?_, ?_, ⟨rfl, rfl, rfl, rfl, rfl⟩, rfl, ?_, rfl⟩
  · by_cases hmi : msg.NewInternalClient = "" <;>
      simp [Client.addPortMappingReq, Client.addPortMappingMsg, newEnvelopeReq, hmi]
  · intro x
    by_cases hmi : msg.NewInternalClient = "" <;>
      simp [Client.addPortMappingReq, Client.addPortMappingMsg, newEnvelopeReq, hmi]
  · intro x
    simp [Client.deletePortMappingReq, newEnvelopeReq]
